import Mathlib

/-!
Verification of the `agent-core` package (Tool Router, Agent Loop, Autonomous
Loop) of `my-ai-ide`, following `src/packages/agent-core/src/agentLoop.ts`,
`toolRouter.ts` and `autonomousLoop.ts`.

The embedding models the runtime values flowing through the loops:
JSON values (as produced by ECMAScript `JSON.parse`), conversation messages,
tool definitions, and the deterministic state machines of the two loops.
The model session (`model.streamChat`) is an oracle `List Message → String`
giving the accumulated response text for a turn sequence; a tool capability's
`execute` is a function `Json → Except String Json` (`.error` models a thrown
failure, `.ok` a returned value).
-/

namespace AgentCore

/-- JSON values as produced by ECMAScript `JSON.parse`. Numbers keep their
source lexeme (the matched digit text, sign included) rather than an IEEE
float: no routine in `agent-core` computes with a parsed number, so only the
lexeme and its zero-ness are ever observable in the model. -/
inductive Json where
  | null : Json
  | bool (b : Bool) : Json
  | num (lexeme : String) : Json
  | str (s : String) : Json
  | arr (elems : List Json) : Json
  | obj (fields : List (String × Json)) : Json

/-- JavaScript strict equality `===` between a runtime value and a string
literal: true exactly for the equal string primitive. -/
def Json.isStr (j : Json) (s : String) : Bool :=
  match j with
  | .str t => t = s
  | _ => false

/-- Whether a runtime value is JavaScript `null` (`devServerPid !== null`). -/
def Json.isNull : Json → Bool
  | .null => true
  | _ => false

/-- The `{` character (written via its code point to keep string literals
free of brace syntax). -/
def lbrace : Char := Char.ofNat 123

/-- The `}` character. -/
def rbrace : Char := Char.ofNat 125

/-- JSON whitespace: exactly space, tab, line feed, carriage return
(ECMAScript `JSONWhiteSpace`). -/
def isJsonWs (c : Char) : Bool :=
  c = ' ' || c = '\t' || c = '\n' || c = '\r'

/-- JavaScript `\s` / `String.prototype.trim` whitespace, restricted to the
ASCII range (the sources only ever meet ASCII whitespace; the full JS class
additionally holds Unicode spaces). -/
def isJsWs (c : Char) : Bool :=
  c = ' ' || c = '\t' || c = '\n' || c = '\r' ||
  c = Char.ofNat 11 || c = Char.ofNat 12

/-- Line terminators excluded by the JavaScript regex `.` (dot) without the
`s` flag, ASCII part. -/
def isLineTerm (c : Char) : Bool :=
  c = '\n' || c = '\r'

/-- `String.prototype.trim`: strip leading and trailing whitespace. -/
def trimJS (cs : List Char) : List Char :=
  ((cs.dropWhile isJsWs).reverse.dropWhile isJsWs).reverse

/-- First index at which `pat` occurs as a contiguous sublist of `cs`
(leftmost match of a literal pattern), or `none`. -/
def findSub (pat : List Char) : List Char → Option Nat
  | [] => if pat.isEmpty then some 0 else none
  | c :: rest =>
    if pat.isPrefixOf (c :: rest) then some 0
    else (findSub pat rest).map (· + 1)

/-- Whether `pat` occurs somewhere in `cs`. -/
def containsSub (pat cs : List Char) : Bool :=
  (findSub pat cs).isSome

/-- JavaScript `String.prototype.includes` on Lean strings. -/
def strContains (haystack needle : String) : Bool :=
  containsSub needle.data haystack.data

/-- ASCII lower-casing of a string, modelling `toLowerCase()` on the ASCII
inputs the loops handle. -/
def lowerStr (s : String) : String :=
  ⟨s.data.map Char.toLower⟩

/-- ASCII upper-casing of a string, modelling `toUpperCase()`. -/
def upperStr (s : String) : String :=
  ⟨s.data.map Char.toUpper⟩

/-- Property lookup on a JSON object: with duplicate keys the last binding
wins, as for objects built by `JSON.parse`. -/
def objLookup (fields : List (String × Json)) (key : String) : Option Json :=
  (fields.reverse.find? (fun kv => kv.1 = key)).map (·.2)

/-- ECMAScript truthiness of a JSON value. A number is falsy exactly when it
denotes zero, i.e. when every mantissa digit of its lexeme is `0` (exact for
all lexemes whose value does not underflow to zero). -/
def truthy : Json → Bool
  | .null => false
  | .bool b => b
  | .num lex =>
    !(((lex.data.takeWhile (fun c => c ≠ 'e' && c ≠ 'E')).filter Char.isDigit).all
      (fun c => c = '0'))
  | .str s => s ≠ ""
  | .arr _ => true
  | .obj _ => true

/-- JavaScript property access `value.key`, as used inside the `try` blocks
of `parseToolCall` (`parsed.tool`, `parsed.args`): a field of an object, and
no value (`undefined`, or a caught `TypeError` on `null`) otherwise. -/
def getProp (j : Json) (key : String) : Option Json :=
  match j with
  | .obj fields => objLookup fields key
  | _ => none

/-- Drop leading JSON whitespace. -/
def skipWs (cs : List Char) : List Char :=
  cs.dropWhile isJsonWs

/-- Value of a hexadecimal digit. -/
def hexVal (c : Char) : Option Nat :=
  if '0' ≤ c && c ≤ '9' then some (c.toNat - 48)
  else if 'a' ≤ c && c ≤ 'f' then some (c.toNat - 87)
  else if 'A' ≤ c && c ≤ 'F' then some (c.toNat - 55)
  else none

/-- Four hexadecimal digits, as in a `\uXXXX` escape. -/
def parseHex4 : List Char → Option (Nat × List Char)
  | a :: b :: c :: d :: rest =>
    match hexVal a, hexVal b, hexVal c, hexVal d with
    | some x, some y, some z, some w => some ((((x * 16 + y) * 16 + z) * 16 + w), rest)
    | _, _, _, _ => none
  | _ => none

/-- Scalar for a `\uXXXX` code unit that is not part of a surrogate pair.
A lone surrogate (legal in a JavaScript string, unrepresentable in a Lean
`Char`) is mapped to U+FFFD; no `agent-core` routine inspects such text. -/
def codeToChar (n : Nat) : Char :=
  if 0xD800 ≤ n && n ≤ 0xDFFF then Char.ofNat 0xFFFD else Char.ofNat n

/-- Body of a JSON string literal, after the opening quote: the decoded
characters and the text after the closing quote. Escapes follow ECMAScript
`JSON.parse`; a `\uXXXX` high surrogate immediately followed by a `\uXXXX`
low surrogate decodes as one scalar. -/
def parseJStr : Nat → List Char → Option (List Char × List Char)
  | 0, _ => none
  | _, [] => none
  | fuel + 1, c :: rest =>
    if c = '\"' then some ([], rest)
    else if c = '\\' then
      match rest with
      | [] => none
      | e :: rest2 =>
        if e = '\"' || e = '\\' || e = '/' then
          (parseJStr fuel rest2).map (fun p => ((if e = '/' then '/' else e) :: p.1, p.2))
        else if e = 'b' then (parseJStr fuel rest2).map (fun p => (Char.ofNat 8 :: p.1, p.2))
        else if e = 'f' then (parseJStr fuel rest2).map (fun p => (Char.ofNat 12 :: p.1, p.2))
        else if e = 'n' then (parseJStr fuel rest2).map (fun p => ('\n' :: p.1, p.2))
        else if e = 'r' then (parseJStr fuel rest2).map (fun p => ('\r' :: p.1, p.2))
        else if e = 't' then (parseJStr fuel rest2).map (fun p => ('\t' :: p.1, p.2))
        else if e = 'u' then
          match parseHex4 rest2 with
          | none => none
          | some (n, rest3) =>
            if 0xD800 ≤ n && n ≤ 0xDBFF then
              match rest3 with
              | u1 :: u2 :: rest4 =>
                if u1 = '\\' && u2 = 'u' then
                  match parseHex4 rest4 with
                  | some (m, rest5) =>
                    if 0xDC00 ≤ m && m ≤ 0xDFFF then
                      (parseJStr fuel rest5).map (fun p =>
                        (Char.ofNat (0x10000 + (n - 0xD800) * 0x400 + (m - 0xDC00)) :: p.1, p.2))
                    else (parseJStr fuel rest3).map (fun p => (codeToChar n :: p.1, p.2))
                  | none => (parseJStr fuel rest3).map (fun p => (codeToChar n :: p.1, p.2))
                else (parseJStr fuel rest3).map (fun p => (codeToChar n :: p.1, p.2))
              | _ => (parseJStr fuel rest3).map (fun p => (codeToChar n :: p.1, p.2))
            else (parseJStr fuel rest3).map (fun p => (codeToChar n :: p.1, p.2))
        else none
    else if c.toNat < 0x20 then none
    else (parseJStr fuel rest).map (fun p => (c :: p.1, p.2))

/-- A JSON number lexeme (`-?(0|[1-9][0-9]*)(\.[0-9]+)?([eE][+-]?[0-9]+)?`):
the matched characters and the rest. -/
def parseNum (cs : List Char) : Option (List Char × List Char) :=
  let step1 : List Char × List Char :=
    match cs with
    | c :: r => if c = '-' then ([c], r) else ([], cs)
    | [] => ([], [])
  match step1.2 with
  | [] => none
  | c :: r =>
    let intRes : Option (List Char × List Char) :=
      if c = '0' then some ([c], r)
      else if c.isDigit then some (step1.2.takeWhile Char.isDigit, step1.2.dropWhile Char.isDigit)
      else none
    match intRes with
    | none => none
    | some (intPart, cs2) =>
      let fracRes : Option (List Char × List Char) :=
        match cs2 with
        | p :: r2 =>
          if p = '.' then
            let ds := r2.takeWhile Char.isDigit
            if ds.isEmpty then none
            else some (p :: ds, r2.dropWhile Char.isDigit)
          else some ([], cs2)
        | [] => some ([], cs2)
      match fracRes with
      | none => none
      | some (fracPart, cs3) =>
        let expRes : Option (List Char × List Char) :=
          match cs3 with
          | p :: r3 =>
            if p = 'e' || p = 'E' then
              let signEtc : List Char × List Char :=
                match r3 with
                | q :: r4 => if q = '+' || q = '-' then ([q], r4) else ([], r3)
                | [] => ([], [])
              let ds := signEtc.2.takeWhile Char.isDigit
              if ds.isEmpty then none
              else some (p :: (signEtc.1 ++ ds), signEtc.2.dropWhile Char.isDigit)
            else some ([], cs3)
          | [] => some ([], cs3)
        match expRes with
        | none => none
        | some (expPart, cs4) =>
          some (step1.1 ++ intPart ++ fracPart ++ expPart, cs4)

mutual

/-- One JSON value starting at the head of the input (callers have skipped
leading whitespace): the value and the unconsumed rest. -/
def parseValue : Nat → List Char → Option (Json × List Char)
  | 0, _ => none
  | fuel + 1, cs =>
    match cs with
    | [] => none
    | c :: rest =>
      if c = 'n' then
        if ['u', 'l', 'l'].isPrefixOf rest then some (Json.null, rest.drop 3) else none
      else if c = 't' then
        if ['r', 'u', 'e'].isPrefixOf rest then some (Json.bool true, rest.drop 3) else none
      else if c = 'f' then
        if ['a', 'l', 's', 'e'].isPrefixOf rest then some (Json.bool false, rest.drop 4) else none
      else if c = '\"' then
        (parseJStr fuel rest).map (fun p => (Json.str ⟨p.1⟩, p.2))
      else if c = lbrace then
        let cs1 := skipWs rest
        match cs1 with
        | d :: cs2 => if d = rbrace then some (Json.obj [], cs2) else parseMembers fuel cs1 []
        | [] => none
      else if c = '[' then
        let cs1 := skipWs rest
        match cs1 with
        | d :: cs2 => if d = ']' then some (Json.arr [], cs2) else parseElems fuel cs1 []
        | [] => none
      else
        (parseNum cs).map (fun p => (Json.num ⟨p.1⟩, p.2))

/-- Members of a JSON object, starting at a key (whitespace skipped). -/
def parseMembers : Nat → List Char → List (String × Json) → Option (Json × List Char)
  | 0, _, _ => none
  | fuel + 1, cs, acc =>
    match cs with
    | [] => none
    | c :: rest =>
      if c = '\"' then
        match parseJStr fuel rest with
        | none => none
        | some (key, cs2) =>
          match skipWs cs2 with
          | [] => none
          | k :: cs4 =>
            if k = ':' then
              match parseValue fuel (skipWs cs4) with
              | none => none
              | some (v, cs6) =>
                match skipWs cs6 with
                | [] => none
                | m :: cs8 =>
                  if m = ',' then parseMembers fuel (skipWs cs8) (acc ++ [(⟨key⟩, v)])
                  else if m = rbrace then some (Json.obj (acc ++ [(⟨key⟩, v)]), cs8)
                  else none
            else none
      else none

/-- Elements of a JSON array, starting at a value (whitespace skipped). -/
def parseElems : Nat → List Char → List Json → Option (Json × List Char)
  | 0, _, _ => none
  | fuel + 1, cs, acc =>
    match parseValue fuel cs with
    | none => none
    | some (v, cs2) =>
      match skipWs cs2 with
      | [] => none
      | m :: cs4 =>
        if m = ',' then parseElems fuel (skipWs cs4) (acc ++ [v])
        else if m = ']' then some (Json.arr (acc ++ [v]), cs4)
        else none

end

/-- ECMAScript `JSON.parse` on a character list: one value, surrounded only
by JSON whitespace, or failure. -/
def jsonParseList (cs : List Char) : Option Json :=
  match parseValue (cs.length + 1) (skipWs cs) with
  | some (v, rest) => if (skipWs rest).isEmpty then some v else none
  | none => none

/-- `JSON.parse` on a string. -/
def jsonParse (s : String) : Option Json :=
  jsonParseList s.data

/-- Hexadecimal digit character (lower case), for `\u00XX` escapes. -/
def hexDigit (n : Nat) : Char :=
  if n < 10 then Char.ofNat (48 + n) else Char.ofNat (87 + n)

/-- `JSON.stringify` escaping of one character of a string. -/
def escapeChar (c : Char) : List Char :=
  if c = '\"' then ['\\', '\"']
  else if c = '\\' then ['\\', '\\']
  else if c.toNat = 8 then ['\\', 'b']
  else if c.toNat = 12 then ['\\', 'f']
  else if c = '\n' then ['\\', 'n']
  else if c = '\r' then ['\\', 'r']
  else if c = '\t' then ['\\', 't']
  else if c.toNat < 0x20 then ['\\', 'u', '0', '0', hexDigit (c.toNat / 16), hexDigit (c.toNat % 16)]
  else [c]

/-- `JSON.stringify` rendering of a string, quotes included. -/
def quoteJson (s : String) : String :=
  ⟨'\"' :: (s.data.map escapeChar).flatten ++ ['\"']⟩

/-- The string consisting of the single character `{`. -/
def lbraceS : String := ⟨[lbrace]⟩

/-- The string consisting of the single character `}`. -/
def rbraceS : String := ⟨[rbrace]⟩

mutual

/-- Compact `JSON.stringify(value)` (no indent argument). A `num` prints its
stored lexeme: exact whenever the lexeme is already in canonical form, which
holds for every number value appearing in the claims below. -/
def stringifyC : Json → String
  | .null => "null"
  | .bool b => if b then "true" else "false"
  | .num lex => lex
  | .str s => quoteJson s
  | .arr xs => "[" ++ stringifyCL xs ++ "]"
  | .obj fs => lbraceS ++ stringifyCF fs ++ rbraceS

/-- Compact serialization of array elements, comma-separated. -/
def stringifyCL : List Json → String
  | [] => ""
  | [x] => stringifyC x
  | x :: y :: rest => stringifyC x ++ "," ++ stringifyCL (y :: rest)

/-- Compact serialization of object members, comma-separated. -/
def stringifyCF : List (String × Json) → String
  | [] => ""
  | [(k, v)] => quoteJson k ++ ":" ++ stringifyC v
  | (k, v) :: kv :: rest => quoteJson k ++ ":" ++ stringifyC v ++ "," ++ stringifyCF (kv :: rest)

end

mutual

/-- Pretty `JSON.stringify(value, null, 2)` with accumulated indent `ind`. -/
def stringifyP (ind : String) : Json → String
  | .null => "null"
  | .bool b => if b then "true" else "false"
  | .num lex => lex
  | .str s => quoteJson s
  | .arr [] => "[]"
  | .arr (x :: xs) => "[\n" ++ stringifyPL (ind ++ "  ") (x :: xs) ++ "\n" ++ ind ++ "]"
  | .obj [] => lbraceS ++ rbraceS
  | .obj (kv :: fs) =>
    lbraceS ++ "\n" ++ stringifyPF (ind ++ "  ") (kv :: fs) ++ "\n" ++ ind ++ rbraceS

/-- Pretty serialization of array elements, one per line. -/
def stringifyPL (ind : String) : List Json → String
  | [] => ""
  | [x] => ind ++ stringifyP ind x
  | x :: y :: rest => ind ++ stringifyP ind x ++ ",\n" ++ stringifyPL ind (y :: rest)

/-- Pretty serialization of object members, one per line. -/
def stringifyPF (ind : String) : List (String × Json) → String
  | [] => ""
  | [(k, v)] => ind ++ quoteJson k ++ ": " ++ stringifyP ind v
  | (k, v) :: kv :: rest =>
    ind ++ quoteJson k ++ ": " ++ stringifyP ind v ++ ",\n" ++ stringifyPF ind (kv :: rest)

end

/-- JavaScript `String(value)` / template-literal rendering of a runtime
value, as in `` `Using tool: ${toolCall.name}` ``. Exact for primitives; the
rendering of containers is approximated (every tool name this model ever
renders is a string primitive). -/
def jsToString : Json → String
  | .str s => s
  | .num lex => lex
  | .bool b => if b then "true" else "false"
  | .null => "null"
  | .arr _ => ""
  | .obj _ => "[object Object]"

/-- `ToolResult` of `@my-ai-ide/shared`: the uniform envelope returned by
`ToolRouter.execute`. `none` models an absent (`undefined`) field. -/
structure ToolResult where
  success : Bool
  result : Option Json := none
  error : Option String := none

/-- The fields of a `ToolResult` in the insertion order of the object
literals of `toolRouter.ts` (`success` first, then whichever of
`result`/`error` was set); `JSON.stringify` omits `undefined` fields. -/
def ToolResult.toJsonFields (tr : ToolResult) : List (String × Json) :=
  ("success", Json.bool tr.success) ::
    ((tr.result.map (fun v => [("result", v)])).getD [] ++
      (tr.error.map (fun e => [("error", Json.str e)])).getD [])

/-- `ToolDefinition` of `agent-core/src/types.ts`: a named capability with an
execution function; `.error` models a thrown failure, `.ok` a returned value.
The declarative `schema` field is omitted: neither the router nor the loops
ever consult it. -/
structure ToolDefinition where
  name : String
  description : String := ""
  execute : Json → Except String Json

/-- `Map` lookup for a router built by inserting the tools in order
(`constructor`/`register` replace by name, so the last tool with a given
name wins). -/
def routerGet (tools : List ToolDefinition) (name : String) : Option ToolDefinition :=
  tools.reverse.find? (fun t => t.name = name)

/-- The router lookup performed by `execute`: the name is the runtime value
taken from the parsed tool call, and a `Map` keyed by strings misses on any
non-string key. -/
def routerLookup (tools : List ToolDefinition) (name : Json) : Option ToolDefinition :=
  match name with
  | .str s => routerGet tools s
  | _ => none

/-- `ToolRouter.execute(name, args)` from `toolRouter.ts` (lines 18–39):
an unregistered name and a thrown capability failure both become
`success:false` envelopes; a returned value is wrapped as `success:true`;
the routine itself never throws. -/
def routerExecute (tools : List ToolDefinition) (name : Json) (args : Json) : ToolResult :=
  match routerLookup tools name with
  | none =>
    { success := false, error := some ("Tool \"" ++ jsToString name ++ "\" not found") }
  | some tool =>
    match tool.execute args with
    | .ok v => { success := true, result := some v }
    | .error msg => { success := false, error := some msg }

/-- The characters of `` ```json ``. -/
def fenceTokJson : List Char := ("```json").data

/-- The characters of `` ``` ``. -/
def fenceTok : List Char := ("```").data

/-- Capture group of the fenced-block regexes of `parseToolCall`
(`` /```json\s*\n?([\s\S]*?)\n?```/ `` and the generic variant): the leftmost
occurrence of the opener, greedy `\s*` (whose maximal run is never shrunk —
whitespace holds no backtick, so backtracking it can never expose a closing
fence), a lazy body ending at the earliest closing fence, and a greedy
optional newline folded into the closing fence when present. -/
def fenceCapture (opener : List Char) (cs : List Char) : Option (List Char) :=
  match findSub opener cs with
  | none => none
  | some i =>
    let afterWs := (cs.drop (i + opener.length)).dropWhile isJsWs
    match findSub fenceTok afterWs with
    | none => none
    | some q =>
      let cap := afterWs.take q
      some (if cap.getLast? = some '\n' then cap.dropLast else cap)

/-- Whether, after an opening brace, the text holds `"tool"`, then `"args"`,
then a closing brace, in that order (the reachability condition of the
tolerant prose regex `/\{[\s\S]*"tool"[\s\S]*"args"[\s\S]*\}/`). -/
def hasChain (cs : List Char) : Bool :=
  match findSub ("\"tool\"").data cs with
  | none => false
  | some a =>
    match findSub ("\"args\"").data (cs.drop (a + 6)) with
    | none => false
    | some b => containsSub [rbrace] (((cs.drop (a + 6)).drop (b + 6)))

/-- Index of the first `{` from which the tolerant prose regex can match. -/
def firstBraceChain : List Char → Option Nat
  | [] => none
  | c :: rest =>
    if c = lbrace && hasChain rest then some 0
    else (firstBraceChain rest).map (· + 1)

/-- Index of the last occurrence of a character. -/
def lastIndexOfChar (c : Char) (cs : List Char) : Option Nat :=
  (findSub [c] cs.reverse).map (fun k => cs.length - 1 - k)

/-- Full match of the tolerant prose regex: from the leftmost viable `{`
(leftmost-match rule) to the last `}` of the text (all three `[\s\S]*` are
greedy, so the match ends at the last closing brace, which the chain
condition guarantees to lie past the matched `"args"`). -/
def jsonObjectMatch (cs : List Char) : Option (List Char) :=
  match firstBraceChain cs with
  | none => none
  | some i =>
    match lastIndexOfChar rbrace cs with
    | none => none
    | some j => some ((cs.drop i).take (j - i + 1))

/-- `ToolCall` of `@my-ai-ide/shared` as built by `parseToolCall`: the
runtime values of the `tool` and `args` fields of the parsed object. -/
structure EToolCall where
  name : Json
  args : Json

/-- The truthiness check `if (parsed.tool && parsed.args)` shared by all four
forms of `parseToolCall`, returning the invocation request on success. (The
`TypeError` a property access raises on a parsed `null` is caught by the
enclosing `try`, hence also yields `none`.) -/
def checkToolCall (j : Json) : Option EToolCall :=
  match getProp j "tool", getProp j "args" with
  | some t, some a => if truthy t && truthy a then some ⟨t, a⟩ else none
  | _, _ => none

/-- Surface form 1 of `parseToolCall`: the whole trimmed response parses as
a JSON object with truthy `tool` and `args`. -/
def extractBare (response : String) : Option EToolCall :=
  (jsonParseList (trimJS response.data)).bind checkToolCall

/-- Surface form 2: the capture of the ```` ```json ```` fenced-block regex,
trimmed, parses with truthy `tool` and `args`. -/
def extractJsonFence (response : String) : Option EToolCall :=
  (fenceCapture fenceTokJson response.data).bind fun cap =>
    (jsonParseList (trimJS cap)).bind checkToolCall

/-- Surface form 3: the capture of the generic fenced-block regex, trimmed,
parses with truthy `tool` and `args`. -/
def extractAnyFence (response : String) : Option EToolCall :=
  (fenceCapture fenceTok response.data).bind fun cap =>
    (jsonParseList (trimJS cap)).bind checkToolCall

/-- Surface form 4: the match of the tolerant prose regex (untrimmed) parses
with truthy `tool` and `args`. -/
def extractEmbedded (response : String) : Option EToolCall :=
  (jsonObjectMatch response.data).bind fun m =>
    (jsonParseList m).bind checkToolCall

/-- `AgentLoop.parseToolCall` (`agentLoop.ts`, lines 470–535): the four
surface forms tried in order, each malformed candidate falling through to
the next; `none` when no form yields a tool call. -/
def parseToolCall (response : String) : Option EToolCall :=
  match extractBare response with
  | some tc => some tc
  | none =>
    match extractJsonFence response with
    | some tc => some tc
    | none =>
      match extractAnyFence response with
      | some tc => some tc
      | none => extractEmbedded response

/-- Alternatives of the first two action-description patterns
(`/I will (proceed to |do |delete |...)/i`, `/I'll (...)/i`). -/
def actionAlts : List String :=
  ["proceed to ", "do ", "delete ", "remove ", "create ", "update ", "install ", "run "]

/-- Alternatives of the verb-only action-description patterns. -/
def actionVerbAlts : List String :=
  ["delete", "remove", "create", "update", "install", "run"]

/-- One scan step of the `/(found|located).*will (delete|remove)/i`-shaped
patterns: some first alternative occurs, and some second alternative follows
it on the same line (the dot of a JavaScript regex does not cross a line
terminator). -/
def sameLineSeq (firsts seconds : List String) : List Char → Bool
  | [] => false
  | c :: rest =>
    (firsts.any fun f =>
      f.data.isPrefixOf (c :: rest) &&
        seconds.any fun s =>
          containsSub s.data (((c :: rest).drop f.data.length).takeWhile (fun ch => !isLineTerm ch)))
    || sameLineSeq firsts seconds rest

/-- `actionDescriptionPatterns.some(p => p.test(response))` from
`agentLoop.ts` lines 394–406: the nine case-insensitive patterns detecting
a narrated (not executed) action. -/
def isActionDescription (response : String) : Bool :=
  let l := (lowerStr response).data
  actionAlts.any (fun alt => containsSub ("i will " ++ alt).data l)
  || actionAlts.any (fun alt => containsSub ("i'll " ++ alt).data l)
  || containsSub ("i will now").data l
  || containsSub ("i'll now").data l
  || actionVerbAlts.any (fun v => containsSub ("proceed to " ++ v).data l)
  || actionVerbAlts.any (fun v => containsSub ("will " ++ v).data l)
  || actionVerbAlts.any (fun v => containsSub ("going to " ++ v).data l)
  || sameLineSeq ["found", "located"] ["will delete", "will remove"] l
  || sameLineSeq ["found", "located"] ["proceed to"] l

/-- `/(remove|delete|create|update|install|run|build)/i.test(initialMessage)`:
whether the originating user request contains an action verb. -/
def userRequestedAction (initialMessage : String) : Bool :=
  ["remove", "delete", "create", "update", "install", "run", "build"].any
    (fun v => strContains (lowerStr initialMessage) v)

/-- `Message` of `@my-ai-ide/shared`: one conversation turn. -/
structure Message where
  role : String
  content : String
deriving DecidableEq

/-- `AgentState` of `agent-core/src/types.ts`. -/
structure AgentState where
  messages : List Message
  toolCalls : List EToolCall
  toolResults : List ToolResult
  iteration : Nat
  maxIterations : Nat

/-- `AgentLoopResult` of `agentLoop.ts`. -/
structure AgentLoopResult where
  finalMessage : String
  toolCalls : List EToolCall
  iterations : Nat

/-- The information-gathering tool names of the corrective guard
(`['list_files', 'read_file']`). -/
def infoToolNames : List String := ["list_files", "read_file"]

/-- The action-class tool names
(`['delete_file', 'write_file', 'run_command', 'create_app_directory']`). -/
def actionToolNames : List String :=
  ["delete_file", "write_file", "run_command", "create_app_directory"]

/-- `lastToolWasInfoGathering`: the most recent dispatched tool call names an
information-gathering tool. -/
def lastToolWasInfoGathering (calls : List EToolCall) : Bool :=
  match calls.getLast? with
  | some tc => infoToolNames.any (fun n => tc.name.isStr n)
  | none => false

/-- `lastToolWasAction`: the most recent dispatched tool call names an
action-class tool. -/
def lastToolWasAction (calls : List EToolCall) : Bool :=
  match calls.getLast? with
  | some tc => actionToolNames.any (fun n => tc.name.isStr n)
  | none => false

/-- `hasActionTool`: some tool call of the session names an action-class
tool (`state.toolCalls.some(...)`). -/
def hasActionTool (calls : List EToolCall) : Bool :=
  calls.any (fun tc => actionToolNames.any (fun n => tc.name.isStr n))

/-- The condition of `agentLoop.ts` line 417 under which the
action-description corrective turn is injected. -/
def correctiveGuard (initialMessage : String) (calls : List EToolCall) (response : String) : Bool :=
  isActionDescription response && userRequestedAction initialMessage
    && !lastToolWasAction calls
    && (calls.length == 0 || lastToolWasInfoGathering calls)

/-- The condition of `agentLoop.ts` line 437 under which the
completion-summary turn is injected. -/
def summaryGuard (initialMessage : String) (calls : List EToolCall) (response : String) : Bool :=
  hasActionTool calls && userRequestedAction initialMessage
    && (trimJS response.data).length < 10

/-- The system turn injected on an empty/whitespace-only response. -/
def emptyResponseText : String :=
  "You provided an empty response. Please continue with the task. If you completed an action, provide a brief completion message. If you need to take action, use a tool call."

/-- The `actionHint` fragment of the corrective turn. -/
def actionHint (initialMessage : String) : String :=
  if strContains (lowerStr initialMessage) "remove" || strContains (lowerStr initialMessage) "delete" then
    "Use delete_file tool to remove the folder/file. First use list_files to find the exact path if needed."
  else if strContains (lowerStr initialMessage) "create" then
    "Use the appropriate create tool to create what was requested."
  else
    "Use the appropriate tool to complete the requested action."

/-- The corrective system turn injected when the model narrates an action
instead of executing it. -/
def correctiveText (initialMessage : String) : String :=
  "ERROR: You described an action but did not execute it. You must use a tool call to perform actions, not describe them. The user requested: \"" ++ initialMessage ++ "\". " ++ actionHint initialMessage ++ " Execute the action immediately using the appropriate tool. Do not describe what you will do - just do it."

/-- The system turn requesting a short completion summary. -/
def summaryText : String :=
  "You successfully executed a tool. Please provide a brief completion message (1-2 sentences) explaining what was accomplished. For example: \"The folder has been removed successfully\" or \"The file has been created\"."

/-- The fallback system turn of `agentLoop.ts` lines 460–463 (unreachable:
it sits under the check that the trimmed response is non-empty). -/
def mustRespondText : String :=
  "You must provide a response. If you completed an action, provide a brief completion message. If you need to take action, use a tool call."

/-- The system turn reporting a tool result
(`` `Tool "${toolCall.name}" executed successfully. Result: ${resultStr}` ``;
`resultStr` is the two-space-indented `JSON.stringify` of the envelope). -/
def toolResultText (name : Json) (tr : ToolResult) : String :=
  "Tool \"" ++ jsToString name ++ "\" executed successfully. Result: " ++
    stringifyP "" (Json.obj tr.toJsonFields)

/-- One round of the `while` body of `AgentLoop.run` (`agentLoop.ts` lines
335–465), given the accumulated model response for this round: either the
state carried into the next round, or the returned final result. (The
source's `try/catch` around `toolRouter.execute` is dead in the model:
`execute` catches every capability failure itself; and the final
`assistant` turn pushed just before returning dies with the returned
session state.) -/
def roundStep (tools : List ToolDefinition) (initialMessage : String)
    (s0 : AgentState) (response : String) : AgentState ⊕ AgentLoopResult :=
  let s := { s0 with iteration := s0.iteration + 1 }
  match parseToolCall response with
  | some toolCall =>
    let s1 := { s with
      toolCalls := s.toolCalls ++ [toolCall],
      messages := s.messages ++ [(⟨"assistant", "Using tool: " ++ jsToString toolCall.name⟩ : Message)] }
    let toolResult := routerExecute tools toolCall.name toolCall.args
    Sum.inl { s1 with
      toolResults := s1.toolResults ++ [toolResult],
      messages := s1.messages ++ [(⟨"system", toolResultText toolCall.name toolResult⟩ : Message)] }
  | none =>
    if (trimJS response.data).isEmpty then
      Sum.inl { s with messages := s.messages ++ [(⟨"system", emptyResponseText⟩ : Message)] }
    else if correctiveGuard initialMessage s.toolCalls response then
      Sum.inl { s with messages := s.messages ++ [(⟨"system", correctiveText initialMessage⟩ : Message)] }
    else if summaryGuard initialMessage s.toolCalls response then
      Sum.inl { s with messages := s.messages ++ [(⟨"system", summaryText⟩ : Message)] }
    else if !(trimJS response.data).isEmpty then
      Sum.inr { finalMessage := response, toolCalls := s.toolCalls, iterations := s.iteration }
    else
      Sum.inl { s with messages := s.messages ++ [(⟨"system", mustRespondText⟩ : Message)] }

/-- The state passed to the next round after the empty-response corrective
turn. -/
def emptyStep (s : AgentState) : AgentState := { s with
  iteration := s.iteration + 1,
  messages := s.messages ++ [(⟨"system", emptyResponseText⟩ : Message)] }

/-- The state passed to the next round after the action-description
corrective turn. -/
def correctiveStep (init : String) (s : AgentState) : AgentState := { s with
  iteration := s.iteration + 1,
  messages := s.messages ++ [(⟨"system", correctiveText init⟩ : Message)] }

/-- The state passed to the next round after the completion-summary turn. -/
def summaryStep (s : AgentState) : AgentState := { s with
  iteration := s.iteration + 1,
  messages := s.messages ++ [(⟨"system", summaryText⟩ : Message)] }

/-- The budget-exceeded failure message
(`` `Agent loop exceeded max iterations (${this.maxIterations})` ``). -/
def exceededMsg (n : Nat) : String :=
  "Agent loop exceeded max iterations (" ++ toString n ++ ")"

/-- The `while (state.iteration < this.maxIterations)` loop of
`AgentLoop.run`, with `fuel` the number of rounds still allowed; exhausting
it throws the budget-exceeded failure. -/
def runRounds (model : List Message → String) (tools : List ToolDefinition)
    (initialMessage : String) (maxIter : Nat) :
    Nat → AgentState → Except String AgentLoopResult
  | 0, _ => .error (exceededMsg maxIter)
  | fuel + 1, s =>
    match roundStep tools initialMessage s (model s.messages) with
    | .inl s' => runRounds model tools initialMessage maxIter fuel s'
    | .inr r => .ok r

/-- The state after `n` further rounds from `s` when every one of them
continues (classifies as non-final); `none` as soon as some round among the
`n` returns a final answer. -/
def pathFrom (model : List Message → String) (tools : List ToolDefinition)
    (initialMessage : String) : Nat → AgentState → Option AgentState
  | 0, s => some s
  | n + 1, s =>
    match roundStep tools initialMessage s (model s.messages) with
    | .inl s' => pathFrom model tools initialMessage n s'
    | .inr _ => none

/-- The fixed operating-instructions system turn seeded by `AgentLoop.run`
(`agentLoop.ts` lines 163–312). Its prose is inert data to every routine of
the loops — only its role slot matters — so it is abridged here, keeping the
interpolated iteration budget. -/
def systemPromptText (maxIterations : Nat) : String :=
  "You are an AI-powered development assistant integrated into a web-based IDE. [operating instructions, tool usage formats, available tools, best practices] You have a maximum of " ++ toString maxIterations ++ " iterations. Use them wisely."

/-- The seeded turn sequence of `AgentLoop.run`: the system prompt, the
prior turns with `system` turns stripped, then the new `user` turn. -/
def initialAgentMessages (maxIterations : Nat) (previousMessages : List Message)
    (initialMessage : String) : List Message :=
  (⟨"system", systemPromptText maxIterations⟩ : Message) ::
    (previousMessages.filter (fun m => m.role != "system") ++
      [(⟨"user", initialMessage⟩ : Message)])

/-- The fresh session state built at the start of `AgentLoop.run`. -/
def initialAgentState (maxIterations : Nat) (previousMessages : List Message)
    (initialMessage : String) : AgentState :=
  { messages := initialAgentMessages maxIterations previousMessages initialMessage,
    toolCalls := [], toolResults := [], iteration := 0, maxIterations := maxIterations }

/-- `config.maxIterations || 10` of the `AgentLoop` constructor: `undefined`
and `0` are falsy, so both fall back to the default round budget 10. -/
def effectiveAgentBudget : Option Nat → Nat
  | none => 10
  | some 0 => 10
  | some (n + 1) => n + 1

/-- `config.maxIterations || 20` of `AutonomousLoop.run`: the default cycle
budget 20 replaces an absent or zero configuration. -/
def effectiveAutoBudget : Option Nat → Nat
  | none => 20
  | some 0 => 20
  | some (n + 1) => n + 1

/-- `AgentConfig` of `agent-core/src/types.ts`. -/
structure AgentConfig where
  tools : List ToolDefinition
  maxIterations : Option Nat := none

/-- `AgentLoop.run(initialMessage, previousMessages)` (`agentLoop.ts` lines
160–468): seeds the session state and drives rounds until a final answer or
the budget-exceeded failure. -/
def agentRun (model : List Message → String) (config : AgentConfig)
    (initialMessage : String) (previousMessages : List Message := []) :
    Except String AgentLoopResult :=
  runRounds model config.tools initialMessage (effectiveAgentBudget config.maxIterations)
    (effectiveAgentBudget config.maxIterations)
    (initialAgentState (effectiveAgentBudget config.maxIterations)
      previousMessages initialMessage)

/-- `AutonomousLoopConfig` of `autonomousLoop.ts` (the `AgentConfig` fields
plus the dev-server / validation options). -/
structure AutoConfig where
  tools : List ToolDefinition
  maxIterations : Option Nat := none
  devServerCommand : Option String := none
  devServerCwd : Option String := none
  testUrl : Option String := none
  successCriteria : Option String := none

/-- `AutonomousLoopResult` of `autonomousLoop.ts`. -/
structure AutoResult where
  success : Bool
  iterations : Nat
  finalMessage : String
  toolCalls : List EToolCall

/-- The observable log of the capability dispatches `AutonomousLoop.run`
itself makes (name and argument object of each direct `execute` call):
`server.start` in setup, the browser capabilities in validation, and
`server.stop` in teardown. -/
abbrev Trace : Type := List (String × Json)

/-- The inner Agent Loop session run by the Autonomous Loop: the
`AgentLoop` built by the `AutonomousLoop` constructor shares the
configuration's tools and `maxIterations` (with the agent-side default 10). -/
def autoAgentRun (model : List Message → String) (cfg : AutoConfig) (msg : String) :
    Except String AgentLoopResult :=
  agentRun model ⟨cfg.tools, cfg.maxIterations⟩ msg []

/-- The cycle-specific prompt: the goal alone on cycle 1, the goal plus the
continue note on later cycles. -/
def cycleContextMessage (goal : String) (iteration : Nat) : String :=
  if iteration > 1 then
    goal ++ "\n\nIteration " ++ toString iteration ++ ". Continue working towards the goal."
  else goal

/-- The case-insensitive completion-keyword test of `autonomousLoop.ts`
lines 112–114. -/
def hasDoneKeyword (s : String) : Bool :=
  strContains (lowerStr s) "done" || strContains (lowerStr s) "complete" ||
    strContains (lowerStr s) "finished"

/-- The working directory passed to the start capability
(`this.config.devServerCwd || process.cwd()`, the empty string being
falsy). -/
def devCwd (cfg : AutoConfig) (processCwd : String) : String :=
  match cfg.devServerCwd with
  | some c => if c = "" then processCwd else c
  | none => processCwd

/-- The argument object of the `server.start` dispatch. -/
def serverStartArgs (cfg : AutoConfig) (processCwd cmd : String) : Json :=
  Json.obj [("command", .str cmd), ("cwd", .str (devCwd cfg processCwd))]

/-- The captured process identifier: present when the start capability's
result is an object with a `pid` member, and that member is not `null`
(`devServerPid !== null` fails on a `null` pid). -/
def pidOf : Json → Option Json
  | .obj fields =>
    (match objLookup fields "pid" with
    | some v => if v.isNull then none else some v
    | none => none)
  | _ => none

/-- Step 1 of `AutonomousLoop.run` (lines 39–51): if a dev-server command is
configured (truthy) and a `server.start` capability is registered, dispatch
it and capture the returned `pid`. A thrown failure propagates — this
dispatch sits inside `try { ... } finally { ... }` with no `catch`. -/
def runSetup (cfg : AutoConfig) (processCwd : String) :
    (Except String (Option Json)) × Trace :=
  match cfg.devServerCommand with
  | none => (.ok none, [])
  | some cmd =>
    if cmd = "" then (.ok none, [])
    else
      match routerGet cfg.tools "server.start" with
      | none => (.ok none, [])
      | some serverTool =>
        match serverTool.execute (serverStartArgs cfg processCwd cmd) with
        | .error e => (.error e, [("server.start", serverStartArgs cfg processCwd cmd)])
        | .ok result => (.ok (pidOf result), [("server.start", serverStartArgs cfg processCwd cmd)])

/-- The screenshot value observed by the validation block: the `screenshot`
member when the capability's result is an object with one, else `null`. -/
def screenshotValOf : Json → Json
  | .obj fields =>
    (match objLookup fields "screenshot" with
    | some v => v
    | none => Json.null)
  | _ => Json.null

/-- The console-log value observed by the validation block: the `logs`
member when the capability's result is an object with one, else `[]`. -/
def logsOf : Json → Json
  | .obj fields =>
    (match objLookup fields "logs" with
    | some v => v
    | none => Json.arr [])
  | _ => Json.arr []

/-- The three browser dispatches of one validation pass, in order. -/
def browserTrace (url : String) : Trace :=
  [("browser.open", Json.obj [("url", .str url)]),
   ("browser.screenshot", Json.obj []),
   ("browser.console_logs", Json.obj [])]

/-- The auxiliary analysis prompt built from the screenshot and console
results. -/
def analysisMessageOf (screenshotResult consoleResult : Json) : String :=
  "Analyze the current state:\n\nScreenshot: " ++
    (if truthy (screenshotValOf screenshotResult) then "Available" else "Not available") ++
    "\nConsole logs: " ++ stringifyC (logsOf consoleResult) ++
    "\n\nDoes the application look correct? Are there any errors?"

/-- The auxiliary success-criteria judgment prompt. -/
def checkMessageOf (crit analysisFinal : String) : String :=
  "Check if this criteria is met: \"" ++ crit ++ "\"\n\nCurrent state: " ++
    analysisFinal ++ "\n\nRespond with \"YES\" if criteria is met, \"NO\" otherwise."

/-- The periodic validation block of `AutonomousLoop.run` (lines 68–109):
on every third cycle with a truthy `testUrl` and all three browser
capabilities registered, open the page, capture screenshot and console
logs, run an auxiliary analysis session, and (with a truthy success
criteria) an auxiliary judgment session; an affirmative `YES` ends the
outer loop with the analysis summary. `some result` is the early return,
`none` falls through to the completion-keyword check. -/
def validationPhase (model : List Message → String) (cfg : AutoConfig)
    (iteration : Nat) (acc : List EToolCall) :
    (Except String (Option AutoResult)) × Trace :=
  match cfg.testUrl with
  | none => (.ok none, [])
  | some url =>
    if url = "" then (.ok none, [])
    else if iteration % 3 == 0 then
      match routerGet cfg.tools "browser.open", routerGet cfg.tools "browser.screenshot",
            routerGet cfg.tools "browser.console_logs" with
      | some browserTool, some screenshotTool, some consoleTool =>
        match browserTool.execute (Json.obj [("url", .str url)]) with
        | .error e => (.error e, [("browser.open", Json.obj [("url", .str url)])])
        | .ok _ =>
          match screenshotTool.execute (Json.obj []) with
          | .error e =>
            (.error e, [("browser.open", Json.obj [("url", .str url)]),
              ("browser.screenshot", Json.obj [])])
          | .ok screenshotResult =>
            match consoleTool.execute (Json.obj []) with
            | .error e => (.error e, browserTrace url)
            | .ok consoleResult =>
              match autoAgentRun model cfg (analysisMessageOf screenshotResult consoleResult) with
              | .error e => (.error e, browserTrace url)
              | .ok analysisResult =>
                match cfg.successCriteria with
                | none => (.ok none, browserTrace url)
                | some crit =>
                  if crit = "" then (.ok none, browserTrace url)
                  else
                    match autoAgentRun model cfg
                        (checkMessageOf crit analysisResult.finalMessage) with
                    | .error e => (.error e, browserTrace url)
                    | .ok checkResult =>
                      if strContains (upperStr checkResult.finalMessage) "YES" then
                        (.ok (some ⟨true, iteration, analysisResult.finalMessage, acc⟩),
                          browserTrace url)
                      else (.ok none, browserTrace url)
      | _, _, _ => (.ok none, [])
    else (.ok none, [])

/-- The cycle-budget-exhaustion outcome message. -/
def exhaustedMsg (n : Nat) : String :=
  "Reached maximum iterations (" ++ toString n ++ ")"

/-- The `while (iteration < maxIterations)` loop of `AutonomousLoop.run`
(lines 54–129), with `fuel` the cycles still allowed, `iter` the cycles
already run, and `acc` the accumulated invocation trace returned to the
caller. A throw anywhere in a cycle body propagates. -/
def runCycles (model : List Message → String) (cfg : AutoConfig) (goal : String)
    (maxIter : Nat) : Nat → Nat → List EToolCall → (Except String AutoResult) × Trace
  | 0, iter, acc => (.ok ⟨false, iter, exhaustedMsg maxIter, acc⟩, [])
  | fuel + 1, iter, acc =>
    match autoAgentRun model cfg (cycleContextMessage goal (iter + 1)) with
    | .error e => (.error e, [])
    | .ok agentResult =>
      match validationPhase model cfg (iter + 1) (acc ++ agentResult.toolCalls) with
      | (.error e, tr) => (.error e, tr)
      | (.ok (some r), tr) => (.ok r, tr)
      | (.ok none, tr) =>
        if hasDoneKeyword agentResult.finalMessage then
          (.ok ⟨true, iter + 1, agentResult.finalMessage, acc ++ agentResult.toolCalls⟩, tr)
        else
          ((runCycles model cfg goal maxIter fuel (iter + 1) (acc ++ agentResult.toolCalls)).1,
            tr ++ (runCycles model cfg goal maxIter fuel (iter + 1)
              (acc ++ agentResult.toolCalls)).2)

/-- The `finally` block of `AutonomousLoop.run` (lines 130–142): if a pid
was captured and a `server.stop` capability is registered, dispatch it; its
result — value or thrown failure alike — is discarded by the inner
`try/catch`, so only the dispatch itself is observable. -/
def cleanupTrace (cfg : AutoConfig) (pid : Option Json) : Trace :=
  match pid with
  | none => []
  | some p =>
    match routerGet cfg.tools "server.stop" with
    | none => []
    | some stopTool =>
      match stopTool.execute (Json.obj [("pid", p)]) with
      | _ => [("server.stop", Json.obj [("pid", p)])]

/-- `AutonomousLoop.run(goal)` (lines 32–143): setup, the cycle loop, and
the guaranteed teardown, together with the trace of direct capability
dispatches. A throw from setup or from a cycle body propagates to the
caller (the `try` has a `finally` but no `catch`). -/
def autoRun (model : List Message → String) (cfg : AutoConfig)
    (processCwd goal : String) : (Except String AutoResult) × Trace :=
  match runSetup cfg processCwd with
  | (.error e, tr) => (.error e, tr)
  | (.ok pid, tr) =>
    ((runCycles model cfg goal (effectiveAutoBudget cfg.maxIterations)
        (effectiveAutoBudget cfg.maxIterations) 0 []).1,
      tr ++ (runCycles model cfg goal (effectiveAutoBudget cfg.maxIterations)
        (effectiveAutoBudget cfg.maxIterations) 0 []).2 ++ cleanupTrace cfg pid)

/-- The caller-visible outcome of `AutonomousLoop.run` computed without the
teardown step at all: the statement that teardown never alters the outcome
is `(autoRun ...).1 = autoRunOutcome ...`. -/
def autoRunOutcome (model : List Message → String) (cfg : AutoConfig)
    (processCwd goal : String) : Except String AutoResult :=
  match runSetup cfg processCwd with
  | (.error e, _) => .error e
  | (.ok _, _) =>
    (runCycles model cfg goal (effectiveAutoBudget cfg.maxIterations)
      (effectiveAutoBudget cfg.maxIterations) 0 []).1

/-- Modelled from the spec: the condition under which the specification
says the action-description corrective turn is injected — announcement
phrasing, an action verb in the originating request, and "no action-class
tool has yet been dispatched this session (or only information-gathering
tools have been)". To be compared with `correctiveGuard`, the condition the
source actually tests. -/
def specCorrectiveCondition (initialMessage : String) (calls : List EToolCall)
    (response : String) : Bool :=
  isActionDescription response && userRequestedAction initialMessage
    && !hasActionTool calls

/-- Modelled from the spec: the condition under which the specification
says the completion-summary turn is injected — an action-class tool already
dispatched this session and the new text shorter than the minimal-sentence
threshold. To be compared with `summaryGuard`, the condition the source
actually tests. -/
def specSummaryCondition (calls : List EToolCall) (response : String) : Bool :=
  hasActionTool calls && (trimJS response.data).length < 10

/-- A model session that always answers with empty text. -/
def emptyModel : List Message → String := fun _ => ""

/-- A model session that always answers with a short plain-text status that
is neither a tool call, an action announcement, nor a completion keyword. -/
def busyModel : List Message → String := fun _ => "working on it"

/-- Scenario for the corrective guard: the session dispatches the
action-class `delete_file`, then the information-gathering `list_files`,
then announces a further action in plain text. -/
def c5model (msgs : List Message) : String :=
  if msgs.length == 2 then "\x7b\"tool\": \"delete_file\", \"args\": \x7b\"path\": \"app\"\x7d\x7d"
  else if msgs.length == 4 then "\x7b\"tool\": \"list_files\", \"args\": \x7b\x7d\x7d"
  else "I will now remove the remaining files"

/-- The user request of the corrective-guard scenario (holds the action verb
`remove`). -/
def c5init : String := "remove the app folder"

/-- The round-3 response of the corrective-guard scenario. -/
def c5response : String := "I will now remove the remaining files"

/-- The session state reached after the two tool rounds of the
corrective-guard scenario. -/
def c5state : AgentState :=
  match pathFrom c5model [] c5init 2 (initialAgentState 10 [] c5init) with
  | some s => s
  | none => initialAgentState 10 [] c5init

/-- Scenario for the terseness guard: the session dispatches the
action-class `write_file`, then answers with the two-character text `ok`;
the user request `hi` holds no action verb. -/
def c6model (msgs : List Message) : String :=
  if msgs.length == 2 then "\x7b\"tool\": \"write_file\", \"args\": \x7b\"path\": \"x\"\x7d\x7d"
  else "ok"

/-- The session state reached after the tool round of the terseness-guard
scenario. -/
def c6state : AgentState :=
  match pathFrom c6model [] "hi" 1 (initialAgentState 10 [] "hi") with
  | some s => s
  | none => initialAgentState 10 [] "hi"

/-- A configuration whose dev-server start capability throws. -/
def c2cfg : AutoConfig :=
  { tools := [⟨"server.start", "", fun _ => .error "spawn failed"⟩],
    devServerCommand := some "npm start" }

/-- A start capability returning a process identifier. -/
def c7startTool : ToolDefinition :=
  ⟨"server.start", "", fun _ => .ok (Json.obj [("pid", Json.num "1")])⟩

/-- A stop capability that throws on every dispatch. -/
def c7stopTool : ToolDefinition :=
  ⟨"server.stop", "", fun _ => .error "kill failed"⟩

/-- A configuration that starts a dev server, owns a throwing stop
capability, and allows a single cycle. -/
def c7cfg : AutoConfig :=
  { tools := [c7startTool, c7stopTool],
    maxIterations := some 1,
    devServerCommand := some "npm run dev" }

/-- A configuration with no dev server, no validation and a one-cycle
budget. -/
def c2okCfg : AutoConfig := { tools := [], maxIterations := some 1 }

/-- A round whose response parses as a tool call: the request and its result
envelope are appended (in this order) and the loop continues. -/
theorem roundStep_some_eq (tools : List ToolDefinition) (init : String)
    (s : AgentState) (r : String) (tc : EToolCall)
    (hpc : parseToolCall r = some tc) :
    roundStep tools init s r = Sum.inl { s with
      iteration := s.iteration + 1,
      toolCalls := s.toolCalls ++ [tc],
      toolResults := s.toolResults ++ [routerExecute tools tc.name tc.args],
      messages := s.messages ++
        [(⟨"assistant", "Using tool: " ++ jsToString tc.name⟩ : Message),
         (⟨"system", toolResultText tc.name (routerExecute tools tc.name tc.args)⟩ : Message)] } := by
  unfold roundStep
  rw [hpc]
  simp

/-- A round whose response is not a tool call: the empty-response turn, the
two guard turns, or the final answer, in the source's order (the source's
last `else` is unreachable and drops out). -/
theorem roundStep_none_eq (tools : List ToolDefinition) (init : String)
    (s : AgentState) (r : String)
    (hpc : parseToolCall r = none) :
    roundStep tools init s r =
      (if (trimJS r.data).isEmpty then Sum.inl (emptyStep s)
      else if correctiveGuard init s.toolCalls r then Sum.inl (correctiveStep init s)
      else if summaryGuard init s.toolCalls r then Sum.inl (summaryStep s)
      else
        Sum.inr { finalMessage := r, toolCalls := s.toolCalls, iterations := s.iteration + 1 }) := by
  unfold roundStep
  rw [hpc]
  cases h1 : (trimJS r.data).isEmpty with
  | false => simp [h1, emptyStep, correctiveStep, summaryStep]
  | true => simp [h1, emptyStep]

/-- A continuing round keeps the invocation and result logs equally long. -/
theorem roundStep_inl_pairs {tools : List ToolDefinition} {init : String}
    {s s' : AgentState} {r : String}
    (h : roundStep tools init s r = Sum.inl s')
    (hp : s.toolResults.length = s.toolCalls.length) :
    s'.toolResults.length = s'.toolCalls.length := by
  cases hpc : parseToolCall r with
  | some tc =>
    rw [roundStep_some_eq tools init s r tc hpc] at h
    simp only [Sum.inl.injEq] at h
    subst h
    simp [hp]
  | none =>
    rw [roundStep_none_eq tools init s r hpc] at h
    split at h
    · simp only [Sum.inl.injEq] at h; subst h; simpa [emptyStep] using hp
    · split at h
      · simp only [Sum.inl.injEq] at h; subst h; simpa [correctiveStep] using hp
      · split at h
        · simp only [Sum.inl.injEq] at h; subst h; simpa [summaryStep] using hp
        · cases h

/-- A continuing round advances the round counter by exactly one. -/
theorem roundStep_inl_iter {tools : List ToolDefinition} {init : String}
    {s s' : AgentState} {r : String}
    (h : roundStep tools init s r = Sum.inl s') :
    s'.iteration = s.iteration + 1 := by
  cases hpc : parseToolCall r with
  | some tc =>
    rw [roundStep_some_eq tools init s r tc hpc] at h
    simp only [Sum.inl.injEq] at h
    subst h
    rfl
  | none =>
    rw [roundStep_none_eq tools init s r hpc] at h
    split at h
    · simp only [Sum.inl.injEq] at h; subst h; rfl
    · split at h
      · simp only [Sum.inl.injEq] at h; subst h; rfl
      · split at h
        · simp only [Sum.inl.injEq] at h; subst h; rfl
        · cases h

/-- A final round reports the incremented round counter, the session's
invocation log, and the response text. -/
theorem roundStep_inr_iter {tools : List ToolDefinition} {init : String}
    {s : AgentState} {r : String} {res : AgentLoopResult}
    (h : roundStep tools init s r = Sum.inr res) :
    res.iterations = s.iteration + 1 ∧ res.toolCalls = s.toolCalls ∧ res.finalMessage = r := by
  cases hpc : parseToolCall r with
  | some tc =>
    rw [roundStep_some_eq tools init s r tc hpc] at h
    cases h
  | none =>
    rw [roundStep_none_eq tools init s r hpc] at h
    split at h
    · cases h
    · split at h
      · cases h
      · split at h
        · cases h
        · simp only [Sum.inr.injEq] at h; subst h; exact ⟨rfl, rfl, rfl⟩

/-! ## Lemmas about runs -/

/-- Log pairing is preserved along any all-continuing path. -/
theorem pathFrom_pairs {model : List Message → String} {tools : List ToolDefinition}
    {init : String} :
    ∀ (n : Nat) (s s' : AgentState), pathFrom model tools init n s = some s' →
      s.toolResults.length = s.toolCalls.length →
      s'.toolResults.length = s'.toolCalls.length := by
  intro n
  induction n with
  | zero => intro s s' h hp; cases h; exact hp
  | succ n ih =>
    intro s s' h hp
    unfold pathFrom at h
    cases hrs : roundStep tools init s (model s.messages) with
    | inl s1 =>
      rw [hrs] at h
      exact ih s1 s' h (roundStep_inl_pairs hrs hp)
    | inr r => rw [hrs] at h; cases h

/-- The round counter advances by exactly the number of rounds taken. -/
theorem pathFrom_iter {model : List Message → String} {tools : List ToolDefinition}
    {init : String} :
    ∀ (n : Nat) (s s' : AgentState), pathFrom model tools init n s = some s' →
      s'.iteration = s.iteration + n := by
  intro n
  induction n with
  | zero => intro s s' h; cases h; rfl
  | succ n ih =>
    intro s s' h
    unfold pathFrom at h
    cases hrs : roundStep tools init s (model s.messages) with
    | inl s1 =>
      rw [hrs] at h
      have := ih s1 s' h
      have h2 := roundStep_inl_iter hrs
      omega
    | inr r => rw [hrs] at h; cases h

/-- If every remaining round continues, the loop ends in the budget-exceeded
failure. -/
theorem runRounds_error_of_path {model : List Message → String}
    {tools : List ToolDefinition} {init : String} {maxIter : Nat} :
    ∀ (fuel : Nat) (s : AgentState), (pathFrom model tools init fuel s).isSome = true →
      runRounds model tools init maxIter fuel s = .error (exceededMsg maxIter) := by
  intro fuel
  induction fuel with
  | zero => intro s _; rfl
  | succ n ih =>
    intro s h
    unfold pathFrom at h
    unfold runRounds
    cases hrs : roundStep tools init s (model s.messages) with
    | inl s1 =>
      rw [hrs] at h
      exact ih s1 h
    | inr r => rw [hrs] at h; simp at h

/-- Conversely, the loop fails only by exhausting every remaining round, and
only with the budget-exceeded message. -/
theorem path_of_runRounds_error {model : List Message → String}
    {tools : List ToolDefinition} {init : String} {maxIter : Nat} :
    ∀ (fuel : Nat) (s : AgentState) (e : String),
      runRounds model tools init maxIter fuel s = .error e →
      (pathFrom model tools init fuel s).isSome = true ∧ e = exceededMsg maxIter := by
  intro fuel
  induction fuel with
  | zero =>
    intro s e h
    unfold runRounds at h
    simp only [Except.error.injEq] at h
    exact ⟨rfl, h.symm⟩
  | succ n ih =>
    intro s e h
    unfold runRounds at h
    unfold pathFrom
    cases hrs : roundStep tools init s (model s.messages) with
    | inl s1 =>
      rw [hrs] at h
      exact ih s1 e h
    | inr r => rw [hrs] at h; cases h

/-- A genuine final answer within the budget returns normally with that
round's result. -/
theorem runRounds_ok_of_final {model : List Message → String}
    {tools : List ToolDefinition} {init : String} {maxIter : Nat} :
    ∀ (k fuel : Nat) (s s' : AgentState) (r : AgentLoopResult),
      pathFrom model tools init k s = some s' → k < fuel →
      roundStep tools init s' (model s'.messages) = Sum.inr r →
      runRounds model tools init maxIter fuel s = .ok r := by
  intro k
  induction k with
  | zero =>
    intro fuel s s' r hp hk hf
    cases hp
    cases fuel with
    | zero => omega
    | succ m =>
      unfold runRounds
      rw [hf]
  | succ n ih =>
    intro fuel s s' r hp hk hf
    unfold pathFrom at hp
    cases fuel with
    | zero => omega
    | succ m =>
      unfold runRounds
      cases hrs : roundStep tools init s (model s.messages) with
      | inl s1 =>
        rw [hrs] at hp
        exact ih m s1 s' r hp (by omega) hf
      | inr rr => rw [hrs] at hp; cases hp


/-! ## Claim theorems: tool-call parsing (C1) -/

/-- C1 (amended). `parseToolCall` tries the four surface forms in the fixed
order — bare object, ```` ```json ````-fenced block, generic fenced block,
object embedded in prose — with malformed candidates falling through:
whichever form first yields a candidate with truthy `tool` and `args`
determines the result; for a bare object those are exactly the parsed
`tool` and `args` values; when no form yields one, no invocation is
extracted and the round dispatches no tool. Such a round is classified as a
final answer exactly when the text is non-blank and neither
self-correction guard fires; a blank text, or one caught by the
action-announcement or terseness guard, instead receives an injected
`system` turn and the session continues to the next round. -/
theorem parseToolCall_four_forms (response : String) :
    (∀ tc, extractBare response = some tc → parseToolCall response = some tc)
    ∧ (∀ tc, extractBare response = none → extractJsonFence response = some tc →
        parseToolCall response = some tc)
    ∧ (∀ tc, extractBare response = none → extractJsonFence response = none →
        extractAnyFence response = some tc → parseToolCall response = some tc)
    ∧ (∀ tc, extractBare response = none → extractJsonFence response = none →
        extractAnyFence response = none → extractEmbedded response = some tc →
        parseToolCall response = some tc)
    ∧ (extractBare response = none → extractJsonFence response = none →
        extractAnyFence response = none → extractEmbedded response = none →
        parseToolCall response = none)
    ∧ (∀ j t a, jsonParseList (trimJS response.data) = some j →
        getProp j "tool" = some t → getProp j "args" = some a →
        truthy t = true → truthy a = true →
        parseToolCall response = some ⟨t, a⟩)
    ∧ (parseToolCall response = none → ∀ (tools : List ToolDefinition) (init : String)
        (s : AgentState),
        (roundStep tools init s response).elim
          (fun s' => s'.toolCalls = s.toolCalls)
          (fun res => res.toolCalls = s.toolCalls))
    ∧ (parseToolCall response = none → ∀ (tools : List ToolDefinition) (init : String)
        (s : AgentState),
        ((trimJS response.data).isEmpty = false →
          correctiveGuard init s.toolCalls response = false →
          summaryGuard init s.toolCalls response = false →
          roundStep tools init s response =
            Sum.inr { finalMessage := response, toolCalls := s.toolCalls,
                      iterations := s.iteration + 1 })
        ∧ ((trimJS response.data).isEmpty = true →
          roundStep tools init s response = Sum.inl (emptyStep s))
        ∧ ((trimJS response.data).isEmpty = false →
          correctiveGuard init s.toolCalls response = true →
          roundStep tools init s response = Sum.inl (correctiveStep init s))
        ∧ ((trimJS response.data).isEmpty = false →
          correctiveGuard init s.toolCalls response = false →
          summaryGuard init s.toolCalls response = true →
          roundStep tools init s response = Sum.inl (summaryStep s))) := by
  refine ⟨?_, ?_, ?_, ?_, ?_, ?_, ?_, ?_⟩
  · intro tc h
    unfold parseToolCall
    rw [h]
  · intro tc h1 h2
    unfold parseToolCall
    rw [h1, h2]
  · intro tc h1 h2 h3
    unfold parseToolCall
    rw [h1, h2, h3]
  · intro tc h1 h2 h3 h4
    unfold parseToolCall
    rw [h1, h2, h3, h4]
  · intro h1 h2 h3 h4
    unfold parseToolCall
    rw [h1, h2, h3, h4]
  · intro j t a hj ht ha htt hta
    have hb : extractBare response = some ⟨t, a⟩ := by
      unfold extractBare
      rw [hj]
      unfold checkToolCall
      rw [Option.some_bind]
      rw [ht, ha]
      simp [htt, hta]
    unfold parseToolCall
    rw [hb]
  · intro hnone tools init s
    rw [roundStep_none_eq tools init s response hnone]
    split
    · simp [emptyStep]
    · split
      · simp [correctiveStep]
      · split
        · simp [summaryStep]
        · simp
  · intro hnone tools init s
    refine ⟨?_, ?_, ?_, ?_⟩
    · intro hne hcg hsg
      rw [roundStep_none_eq tools init s response hnone]
      simp [hne, hcg, hsg]
    · intro hemp
      rw [roundStep_none_eq tools init s response hnone]
      simp [hemp]
    · intro hne hcg
      rw [roundStep_none_eq tools init s response hnone]
      simp [hne, hcg]
    · intro hne hcg hsg
      rw [roundStep_none_eq tools init s response hnone]
      simp [hne, hcg, hsg]

/-- C1 counterexample: the empty response matches none of the four surface
forms, so no invocation is extracted — yet the round is not classified as a
final answer: the loop injects the empty-response `system` corrective turn
and continues to the next round. -/
theorem parseToolCall_final_answer_counterexample :
    parseToolCall "" = none
    ∧ roundStep [] "hi" (initialAgentState 10 [] "hi") "" =
        Sum.inl (emptyStep (initialAgentState 10 [] "hi")) :=
  ⟨rfl, rfl⟩

/-- C1 witness: a ```` ```json ````-fenced tool call, on which form 1 falls
through and form 2 extracts the invocation; a bare-object variant through
the exactness clause; and a plain text matching no form whose round — being
non-blank with neither guard firing — is a genuine final answer. -/
theorem parseToolCall_four_forms_witness :
    parseToolCall "```json\n\x7b\"tool\": \"write_file\", \"args\": \x7b\x7d\x7d\n```" =
      some ⟨Json.str "write_file", Json.obj []⟩
    ∧ parseToolCall "\x7b\"tool\": \"read_file\", \"args\": \x7b\"path\": \"a.txt\"\x7d\x7d" =
      some ⟨Json.str "read_file", Json.obj [("path", Json.str "a.txt")]⟩
    ∧ parseToolCall "hello world" = none
    ∧ roundStep [] "hi" (initialAgentState 10 [] "hi") "hello world" =
        Sum.inr { finalMessage := "hello world", toolCalls := [], iterations := 1 } :=
  ⟨(parseToolCall_four_forms _).2.1 _ rfl rfl,
   (parseToolCall_four_forms _).2.2.2.2.2.1 _ _ _ rfl rfl rfl rfl rfl,
   rfl,
   ((parseToolCall_four_forms "hello world").2.2.2.2.2.2.2 rfl [] "hi"
     (initialAgentState 10 [] "hi")).1 rfl rfl rfl⟩


/-! ## Claim theorems: budgets and termination (C3, C9, C10) -/

/-- C3. If every one of the configured rounds continues (tool call, empty
response, or an injected corrective turn), the session throws the
budget-exceeded failure — and this failure arises only that way, after all
N rounds have run (the reached state's round counter equals N); while a
genuine final answer at some round k < N instead returns normally with
round count k+1 before the budget is reached. -/
theorem agentLoop_budget_exhaustion (model : List Message → String)
    (config : AgentConfig) (init : String) (prev : List Message) :
    ((pathFrom model config.tools init (effectiveAgentBudget config.maxIterations)
        (initialAgentState (effectiveAgentBudget config.maxIterations) prev init)).isSome = true →
      agentRun model config init prev =
        .error (exceededMsg (effectiveAgentBudget config.maxIterations)))
    ∧ (∀ e, agentRun model config init prev = .error e →
        e = exceededMsg (effectiveAgentBudget config.maxIterations) ∧
        ∃ s, pathFrom model config.tools init (effectiveAgentBudget config.maxIterations)
            (initialAgentState (effectiveAgentBudget config.maxIterations) prev init) = some s ∧
          s.iteration = effectiveAgentBudget config.maxIterations)
    ∧ (∀ k s r, pathFrom model config.tools init k
          (initialAgentState (effectiveAgentBudget config.maxIterations) prev init) = some s →
        k < effectiveAgentBudget config.maxIterations →
        roundStep config.tools init s (model s.messages) = Sum.inr r →
        agentRun model config init prev = .ok r ∧ r.iterations = k + 1) := by
  refine ⟨?_, ?_, ?_⟩
  · intro h
    exact runRounds_error_of_path _ _ h
  · intro e h
    obtain ⟨hs, he⟩ := path_of_runRounds_error _ _ e h
    obtain ⟨s, hss⟩ := Option.isSome_iff_exists.mp hs
    refine ⟨he, s, hss, ?_⟩
    have := pathFrom_iter _ _ _ hss
    simpa [initialAgentState] using this
  · intro k s r hp hk hf
    refine ⟨runRounds_ok_of_final k _ _ s r hp hk hf, ?_⟩
    have h1 := (roundStep_inr_iter hf).1
    have h2 := pathFrom_iter _ _ _ hp
    simp [initialAgentState] at h2
    omega

/-- C3 witness: with a two-round budget and a model that always answers
empty text, the session continues twice and then throws. -/
theorem agentLoop_budget_exhaustion_witness :
    agentRun emptyModel ⟨[], some 2⟩ "hi" [] = .error (exceededMsg 2) :=
  (agentLoop_budget_exhaustion emptyModel ⟨[], some 2⟩ "hi" []).1 rfl

/-- C9. At every state from which the next model call would be issued (every
state reached along a run's all-continuing path, the seeded state included),
the result log is exactly as long as the invocation log: each tool request's
envelope is appended before the next model request. -/
theorem toolRequest_result_pairing (model : List Message → String)
    (config : AgentConfig) (init : String) (prev : List Message) (n : Nat)
    (s : AgentState)
    (h : pathFrom model config.tools init n
        (initialAgentState (effectiveAgentBudget config.maxIterations) prev init) = some s) :
    s.toolResults.length = s.toolCalls.length :=
  pathFrom_pairs n _ s h rfl

/-- C9 witness: the state reached after the tool round of the terseness
scenario has one request and one envelope. -/
theorem toolRequest_result_pairing_witness :
    pathFrom c6model [] "hi" 1 (initialAgentState 10 [] "hi") = some c6state
    ∧ c6state.toolResults.length = c6state.toolCalls.length
    ∧ c6state.toolCalls.length = 1 :=
  ⟨rfl, toolRequest_result_pairing c6model ⟨[], none⟩ "hi" [] 1 c6state rfl, rfl⟩

/-- C10. An absent or zero `maxIterations` falls back to 10 (Agent Loop)
resp. 20 (Autonomous Loop); every effective budget is at least 1, so a
zero-round budget cannot be configured and a run that ends in the
budget-exceeded failure has completed its first round — which begins with a
model request on the seeded turns — beforehand. -/
theorem budget_defaults :
    effectiveAgentBudget none = 10 ∧ effectiveAgentBudget (some 0) = 10
    ∧ effectiveAutoBudget none = 20 ∧ effectiveAutoBudget (some 0) = 20
    ∧ (∀ c, 1 ≤ effectiveAgentBudget c ∧ 1 ≤ effectiveAutoBudget c)
    ∧ (∀ (model : List Message → String) (config : AgentConfig) (init : String)
        (prev : List Message) (e : String),
        agentRun model config init prev = .error e →
        ∃ s', roundStep config.tools init
            (initialAgentState (effectiveAgentBudget config.maxIterations) prev init)
            (model (initialAgentState (effectiveAgentBudget config.maxIterations)
              prev init).messages)
          = Sum.inl s') := by
  refine ⟨rfl, rfl, rfl, rfl, ?_, ?_⟩
  · intro c
    cases c with
    | none => exact ⟨by norm_num [effectiveAgentBudget], by norm_num [effectiveAutoBudget]⟩
    | some k =>
      cases k with
      | zero => exact ⟨by norm_num [effectiveAgentBudget], by norm_num [effectiveAutoBudget]⟩
      | succ j => exact ⟨by simp [effectiveAgentBudget], by simp [effectiveAutoBudget]⟩
  · intro model config init prev e h
    obtain ⟨m, hm⟩ : ∃ m, effectiveAgentBudget config.maxIterations = m + 1 := by
      cases hc : config.maxIterations with
      | none => exact ⟨9, rfl⟩
      | some k =>
        cases k with
        | zero => exact ⟨9, rfl⟩
        | succ j => exact ⟨j, rfl⟩
    unfold agentRun at h
    rw [hm] at h
    unfold runRounds at h
    rw [hm]
    cases hrs : roundStep config.tools init
        (initialAgentState (m + 1) prev init)
        (model (initialAgentState (m + 1) prev init).messages) with
    | inl s' => exact ⟨s', rfl⟩
    | inr r => rw [hrs] at h; cases h

/-- C10 witness: the defaults evaluate as claimed, and a run of the
empty-answering model that ends in the budget failure continued through its
first round (shown at the two-round configuration). -/
theorem budget_defaults_witness :
    ∃ s', roundStep ([] : List ToolDefinition) "hi"
        (initialAgentState (effectiveAgentBudget (some 2)) [] "hi")
        (emptyModel (initialAgentState (effectiveAgentBudget (some 2)) [] "hi").messages)
      = Sum.inl s' :=
  (budget_defaults).2.2.2.2.2 emptyModel ⟨[], some 2⟩ "hi" [] (exceededMsg 2) rfl


/-! ## Claim theorems: router envelopes (C4) -/

/-- C4. `ToolRouter.execute` always returns an envelope and never throws:
an unregistered name yields `success:false` with the non-empty
capability-not-found message; a capability whose execution throws yields
`success:false` carrying the thrown message; a returned value is wrapped as
`success:true`; and after any tool-call round — the envelope's success bit
notwithstanding — the session continues to a subsequent round. -/
theorem toolRouter_envelope (tools : List ToolDefinition) (name : Json) (args : Json) :
    (routerLookup tools name = none →
      routerExecute tools name args =
        { success := false, result := none,
          error := some ("Tool \"" ++ jsToString name ++ "\" not found") } ∧
      ("Tool \"" ++ jsToString name ++ "\" not found") ≠ "")
    ∧ (∀ t msg, routerLookup tools name = some t → t.execute args = .error msg →
        routerExecute tools name args =
          { success := false, result := none, error := some msg })
    ∧ (∀ t v, routerLookup tools name = some t → t.execute args = .ok v →
        routerExecute tools name args =
          { success := true, result := some v, error := none })
    ∧ (∀ (init : String) (s : AgentState) (response : String) (tc : EToolCall),
        parseToolCall response = some tc →
        ∃ s', roundStep tools init s response = Sum.inl s') := by
  refine ⟨?_, ?_, ?_, ?_⟩
  · intro h
    constructor
    · unfold routerExecute
      rw [h]
    · intro hh
      have hl := congrArg String.length hh
      rw [String.length_append, String.length_append] at hl
      have h6 : ("Tool \"" : String).length = 6 := rfl
      have h11 : ("\" not found" : String).length = 11 := rfl
      have h0 : ("" : String).length = 0 := rfl
      omega
  · intro t msg ht he
    unfold routerExecute
    rw [ht]
    simp [he]
  · intro t v ht he
    unfold routerExecute
    rw [ht]
    simp [he]
  · intro init s response tc hpc
    exact ⟨_, roundStep_some_eq tools init s response tc hpc⟩

/-- C4 witness: dispatching the unregistered name `nope` on an empty router
returns the failure envelope with its non-empty message. -/
theorem toolRouter_envelope_witness :
    routerExecute [] (Json.str "nope") (Json.obj []) =
      { success := false, result := none,
        error := some ("Tool \"" ++ jsToString (Json.str "nope") ++ "\" not found") } ∧
    ("Tool \"" ++ jsToString (Json.str "nope") ++ "\" not found") ≠ "" :=
  (toolRouter_envelope [] (Json.str "nope") (Json.obj [])).1 rfl

/-! ## Claim theorems: the two response guards (C5, C6) -/

/-- C5 (amended): in a round whose response is neither a tool call nor
blank, the corrective turn is injected — and the loop continues — exactly
under the source's condition: announcement phrasing, an action verb in the
originating request, the *most recent* tool call (if any) not action-class,
and either no tool call yet or the most recent one information-gathering.
When neither guard fires the round returns the response as final; when only
the terseness guard fires its summary turn is injected instead. -/
theorem corrective_guard_code_condition (tools : List ToolDefinition) (init : String)
    (s : AgentState) (response : String)
    (hpc : parseToolCall response = none)
    (hne : (trimJS response.data).isEmpty = false) :
    (correctiveGuard init s.toolCalls response = true →
      roundStep tools init s response = Sum.inl (correctiveStep init s))
    ∧ (correctiveGuard init s.toolCalls response = false →
        summaryGuard init s.toolCalls response = false →
        roundStep tools init s response =
          Sum.inr { finalMessage := response, toolCalls := s.toolCalls,
                    iterations := s.iteration + 1 })
    ∧ (correctiveGuard init s.toolCalls response = false →
        summaryGuard init s.toolCalls response = true →
        roundStep tools init s response = Sum.inl (summaryStep s))
    ∧ (correctiveGuard init s.toolCalls response =
        (isActionDescription response && userRequestedAction init
          && !lastToolWasAction s.toolCalls
          && (s.toolCalls.length == 0 || lastToolWasInfoGathering s.toolCalls))) := by
  refine ⟨?_, ?_, ?_, rfl⟩
  · intro hcg
    rw [roundStep_none_eq tools init s response hpc]
    simp [hne, hcg]
  · intro hcg hsg
    rw [roundStep_none_eq tools init s response hpc]
    simp [hne, hcg, hsg]
  · intro hcg hsg
    rw [roundStep_none_eq tools init s response hpc]
    simp [hne, hcg, hsg]

/-- C5 counterexample: a session that has already dispatched the
action-class `delete_file` and then `list_files` still gets the corrective
turn on an announcement response (the source checks only the most recent
tool call), although the spec's condition — no action-class tool dispatched
this session, or only information-gathering ones — is false. -/
theorem corrective_guard_counterexample :
    pathFrom c5model [] c5init 2 (initialAgentState 10 [] c5init) = some c5state
    ∧ c5model c5state.messages = c5response
    ∧ hasActionTool c5state.toolCalls = true
    ∧ specCorrectiveCondition c5init c5state.toolCalls c5response = false
    ∧ correctiveGuard c5init c5state.toolCalls c5response = true
    ∧ roundStep [] c5init c5state c5response = Sum.inl (correctiveStep c5init c5state) :=
  ⟨rfl, rfl, rfl, rfl, rfl, rfl⟩

/-- C5 witness: the amended condition holds at the reached state of the
scenario, so the corrective turn is injected and the round continues. -/
theorem corrective_guard_code_condition_witness :
    roundStep [] c5init c5state c5response = Sum.inl (correctiveStep c5init c5state) ∧
    correctiveGuard c5init c5state.toolCalls c5response = true :=
  ⟨(corrective_guard_code_condition [] c5init c5state c5response rfl rfl).1 rfl, rfl⟩

/-- C6 (amended): in a round whose response is neither a tool call nor
blank and on which the corrective guard does not fire, the
completion-summary turn is injected — and the loop continues — exactly when
an action-class tool was already dispatched this session, *the originating
user request contains an action verb*, and the trimmed text is shorter than
10 characters; otherwise the text is returned as the final answer. -/
theorem summary_guard_code_condition (tools : List ToolDefinition) (init : String)
    (s : AgentState) (response : String)
    (hpc : parseToolCall response = none)
    (hne : (trimJS response.data).isEmpty = false)
    (hcg : correctiveGuard init s.toolCalls response = false) :
    (summaryGuard init s.toolCalls response = true →
      roundStep tools init s response = Sum.inl (summaryStep s))
    ∧ (summaryGuard init s.toolCalls response = false →
        roundStep tools init s response =
          Sum.inr { finalMessage := response, toolCalls := s.toolCalls,
                    iterations := s.iteration + 1 })
    ∧ (summaryGuard init s.toolCalls response =
        (hasActionTool s.toolCalls && userRequestedAction init
          && decide ((trimJS response.data).length < 10))) := by
  refine ⟨?_, ?_, rfl⟩
  · intro hsg
    rw [roundStep_none_eq tools init s response hpc]
    simp [hne, hcg, hsg]
  · intro hsg
    rw [roundStep_none_eq tools init s response hpc]
    simp [hne, hcg, hsg]

/-- C6 counterexample: after an action-class `write_file` dispatch, the
two-character response `ok` is returned as the final answer — not met with
a summary request — because the user request `hi` contains no action verb,
a conjunct the spec's condition lacks. -/
theorem summary_guard_counterexample :
    pathFrom c6model [] "hi" 1 (initialAgentState 10 [] "hi") = some c6state
    ∧ c6model c6state.messages = "ok"
    ∧ hasActionTool c6state.toolCalls = true
    ∧ specSummaryCondition c6state.toolCalls "ok" = true
    ∧ summaryGuard "hi" c6state.toolCalls "ok" = false
    ∧ agentRun c6model ⟨[], none⟩ "hi" [] =
        .ok { finalMessage := "ok", toolCalls := c6state.toolCalls, iterations := 2 } :=
  ⟨rfl, rfl, rfl, rfl, rfl, rfl⟩

/-- C6 witness: at the corrective-guard scenario's state — whose request
does contain an action verb — the terse text `ok` triggers the summary turn
and the round continues. -/
theorem summary_guard_code_condition_witness :
    roundStep [] c5init c5state "ok" = Sum.inl (summaryStep c5state) ∧
    summaryGuard c5init c5state.toolCalls "ok" = true :=
  ⟨(summary_guard_code_condition [] c5init c5state "ok" rfl rfl rfl).1 rfl, rfl⟩


/-! ## Lemmas about the Autonomous Loop -/

/-- The teardown step never alters the caller-visible outcome: the first
component of `autoRun` equals the teardown-free `autoRunOutcome`. -/
theorem autoRun_fst (model : List Message → String) (cfg : AutoConfig)
    (cwd goal : String) :
    (autoRun model cfg cwd goal).1 = autoRunOutcome model cfg cwd goal := by
  unfold autoRun autoRunOutcome
  cases hs : runSetup cfg cwd with
  | mk res tr => cases res <;> simp

/-- The setup trace holds no `server.stop` dispatch. -/
theorem stop_filter_setup (cfg : AutoConfig) (cwd : String) :
    ((runSetup cfg cwd).2).filter (fun e => e.1 == "server.stop") = [] := by
  unfold runSetup
  repeat' split
  all_goals rfl

/-- The validation trace holds no `server.stop` dispatch. -/
theorem stop_filter_validation (model : List Message → String) (cfg : AutoConfig)
    (it : Nat) (acc : List EToolCall) :
    ((validationPhase model cfg it acc).2).filter (fun e => e.1 == "server.stop") = [] := by
  unfold validationPhase
  repeat' split
  all_goals rfl

/-- The cycle-loop trace holds no `server.stop` dispatch. -/
theorem stop_filter_cycles (model : List Message → String) (cfg : AutoConfig)
    (goal : String) (maxIter : Nat) :
    ∀ (fuel iter : Nat) (acc : List EToolCall),
      ((runCycles model cfg goal maxIter fuel iter acc).2).filter
        (fun e => e.1 == "server.stop") = [] := by
  intro fuel
  induction fuel with
  | zero => intro iter acc; rfl
  | succ n ih =>
    intro iter acc
    unfold runCycles
    cases ha : autoAgentRun model cfg (cycleContextMessage goal (iter + 1)) with
    | error e => rfl
    | ok ar =>
      have hvf := stop_filter_validation model cfg (iter + 1) (acc ++ ar.toolCalls)
      cases hv : validationPhase model cfg (iter + 1) (acc ++ ar.toolCalls) with
      | mk v tr =>
        rw [hv] at hvf
        cases v with
        | error e => simpa [hv] using hvf
        | ok vo =>
          cases vo with
          | some r => simpa [hv] using hvf
          | none =>
            by_cases hd : hasDoneKeyword ar.finalMessage
            · simpa [hv, hd] using hvf
            · simp [hv, hd, List.filter_append, hvf, ih]

/-- With a pid captured and a stop capability registered, the teardown
dispatches `server.stop` once. -/
theorem cleanup_stop (cfg : AutoConfig) (p : Json) (st : ToolDefinition)
    (hst : routerGet cfg.tools "server.stop" = some st) :
    cleanupTrace cfg (some p) = [("server.stop", Json.obj [("pid", p)])] := by
  unfold cleanupTrace
  rw [hst]

/-- With no test URL and an agent that finishes every session without a
completion keyword, the cycle loop exhausts its budget and returns the
non-fatal failure outcome reporting every cycle run. -/
theorem runCycles_exhaust (model : List Message → String) (cfg : AutoConfig)
    (goal : String) (maxIter : Nat)
    (hT : cfg.testUrl = none)
    (hA : ∀ msg, ∃ r, autoAgentRun model cfg msg = .ok r ∧
      hasDoneKeyword r.finalMessage = false) :
    ∀ (fuel iter : Nat) (acc : List EToolCall),
      ∃ tcs, (runCycles model cfg goal maxIter fuel iter acc).1 =
        .ok ⟨false, iter + fuel, exhaustedMsg maxIter, tcs⟩ := by
  intro fuel
  induction fuel with
  | zero => intro iter acc; exact ⟨acc, rfl⟩
  | succ n ih =>
    intro iter acc
    obtain ⟨r, hr, hd⟩ := hA (cycleContextMessage goal (iter + 1))
    unfold runCycles
    rw [hr]
    dsimp only
    have hv : validationPhase model cfg (iter + 1) (acc ++ r.toolCalls) = (.ok none, []) := by
      unfold validationPhase
      rw [hT]
    rw [hv]
    obtain ⟨tcs, htcs⟩ := ih (iter + 1) (acc ++ r.toolCalls)
    have harith : iter + 1 + n = iter + (n + 1) := by omega
    refine ⟨tcs, ?_⟩
    simp [hd, htcs, harith]


/-- A round on the constant response `working on it` is final, whatever the
initial message, provided no tool call was dispatched yet. -/
theorem busyRound (tools : List ToolDefinition) (init : String) (s : AgentState)
    (hcalls : s.toolCalls = []) :
    roundStep tools init s "working on it" =
      Sum.inr { finalMessage := "working on it", toolCalls := [],
                iterations := s.iteration + 1 } := by
  rw [roundStep_none_eq tools init s "working on it" rfl]
  rw [hcalls]
  rfl

/-- The full Agent Loop session on the constant `working on it` model
returns that text at round 1, whatever the initial message. -/
theorem busyAgentRun (cfg : AgentConfig) (msg : String) (m : Nat)
    (hmi : effectiveAgentBudget cfg.maxIterations = m + 1) :
    agentRun busyModel cfg msg [] =
      .ok { finalMessage := "working on it", toolCalls := [], iterations := 1 } := by
  unfold agentRun
  rw [hmi]
  unfold runRounds
  rw [show busyModel (initialAgentState (m + 1) [] msg).messages = "working on it" from rfl]
  rw [busyRound cfg.tools msg (initialAgentState (m + 1) [] msg) rfl]
  rfl

/-! ## Claim theorems: Autonomous Loop (C2, C7, C8) -/

/-- C2 counterexample: a throwing `server.start` capability makes
`AutonomousLoop.run` itself throw — the setup dispatch sits in a
`try`/`finally` with no `catch`, so setup errors are not caught
internally. -/
theorem autoRun_throw_counterexample :
    (autoRun emptyModel c2cfg "/workspace" "build the app").1 = .error "spawn failed" :=
  rfl

/-- C2 (amended). The caller-visible outcome never depends on the teardown
step (teardown failures are swallowed), and exhausting the cycle budget
without a success signal — here with no validation configured and every
cycle finishing without a completion keyword — returns the non-fatal
failure outcome reporting the number of cycles run; but an error thrown
from setup or from a cycle body propagates out of `run`. -/
theorem autoRun_structured_outcome :
    (∀ (model : List Message → String) (cfg : AutoConfig) (cwd goal : String),
      (autoRun model cfg cwd goal).1 = autoRunOutcome model cfg cwd goal)
    ∧ (∀ (model : List Message → String) (cfg : AutoConfig) (cwd goal : String)
        (pid : Option Json) (tr : Trace),
        cfg.testUrl = none →
        runSetup cfg cwd = (.ok pid, tr) →
        (∀ msg, ∃ r, autoAgentRun model cfg msg = .ok r ∧
          hasDoneKeyword r.finalMessage = false) →
        ∃ tcs, (autoRun model cfg cwd goal).1 =
          .ok ⟨false, effectiveAutoBudget cfg.maxIterations,
               exhaustedMsg (effectiveAutoBudget cfg.maxIterations), tcs⟩) := by
  constructor
  · exact autoRun_fst
  · intro model cfg cwd goal pid tr hT hs hA
    obtain ⟨tcs, htcs⟩ := runCycles_exhaust model cfg goal
      (effectiveAutoBudget cfg.maxIterations) hT hA
      (effectiveAutoBudget cfg.maxIterations) 0 []
    refine ⟨tcs, ?_⟩
    unfold autoRun
    rw [hs]
    simpa using htcs

/-- C2 witness: the one-cycle configuration with the busy model exhausts
its budget and returns the structured failure outcome. -/
theorem autoRun_structured_outcome_witness :
    ∃ tcs, (autoRun busyModel c2okCfg "/cwd" "tidy up").1 =
      .ok ⟨false, effectiveAutoBudget c2okCfg.maxIterations,
           exhaustedMsg (effectiveAutoBudget c2okCfg.maxIterations), tcs⟩ :=
  (autoRun_structured_outcome).2 busyModel c2okCfg "/cwd" "tidy up" none [] rfl rfl
    (fun msg => ⟨_, busyAgentRun ⟨c2okCfg.tools, c2okCfg.maxIterations⟩ msg 0 rfl, rfl⟩)

/-- C7. If setup captured a process identifier and a stop capability is
registered, then on every exit path the run's dispatch trace holds exactly
one `server.stop` dispatch, and the teardown — the stop capability's result
or failure included — never alters the outcome `run` returns. -/
theorem server_stop_exactly_once (model : List Message → String) (cfg : AutoConfig)
    (cwd goal : String) (p : Json) (tr0 : Trace) (st : ToolDefinition)
    (hSetup : runSetup cfg cwd = (.ok (some p), tr0))
    (hStop : routerGet cfg.tools "server.stop" = some st) :
    ((autoRun model cfg cwd goal).2.filter (fun e => e.1 == "server.stop")).length = 1
    ∧ (autoRun model cfg cwd goal).1 = autoRunOutcome model cfg cwd goal := by
  constructor
  · have h0 := stop_filter_setup cfg cwd
    rw [hSetup] at h0
    have h1 := stop_filter_cycles model cfg goal (effectiveAutoBudget cfg.maxIterations)
      (effectiveAutoBudget cfg.maxIterations) 0 []
    have h2 := cleanup_stop cfg p st hStop
    unfold autoRun
    rw [hSetup]
    simp [List.filter_append, h0, h1, h2]
  · exact autoRun_fst model cfg cwd goal

/-- C7 witness: the one-cycle dev-server scenario — its stop capability
throws — dispatches `server.stop` exactly once and returns the unaltered
outcome. -/
theorem server_stop_exactly_once_witness :
    ((autoRun busyModel c7cfg "/cwd" "tidy things").2.filter
        (fun e => e.1 == "server.stop")).length = 1
    ∧ (autoRun busyModel c7cfg "/cwd" "tidy things").1 =
        autoRunOutcome busyModel c7cfg "/cwd" "tidy things" :=
  server_stop_exactly_once busyModel c7cfg "/cwd" "tidy things" (Json.num "1")
    [("server.start", serverStartArgs c7cfg "/cwd" "npm run dev")] c7stopTool rfl rfl

end AgentCore
